import Mathlib

/-!
Shallow embedding of the birthday-reminder delivery pipeline:
`BirthdayService` (message ledger), `BirthdayConsumerService` (dispatch
worker), `BirthdaySchedulerService` (trigger scanner), `RecoveryService`
(reconciler) and `LockService` (lock coordinator).

Time is modelled in whole seconds since the Unix epoch (`Int`); a timezone
is a fixed offset in seconds east of UTC.  The Gregorian calendar
conversions mirror the civil-calendar arithmetic the `moment-timezone` /
JS `Date` runtime performs for fixed-offset zones.
-/

/-- Days since 1970-01-01 of a civil date (proleptic Gregorian). -/
def daysFromCivil (y : Int) (m d : Nat) : Int :=
  let yAdj : Int := if m ≤ 2 then y - 1 else y
  let era : Int := yAdj.fdiv 400
  let yoe : Nat := (yAdj - era * 400).toNat
  let mp : Nat := if 2 < m then m - 3 else m + 9
  let doy : Nat := (153 * mp + 2) / 5 + d - 1
  let doe : Nat := yoe * 365 + yoe / 4 - yoe / 100 + doy
  era * 146097 + (doe : Int) - 719468

/-- Civil date (year, month, day) of a day count since 1970-01-01. -/
def civilFromDays (z : Int) : Int × Nat × Nat :=
  let zs : Int := z + 719468
  let era : Int := zs.fdiv 146097
  let doe : Nat := (zs - era * 146097).toNat
  let yoe : Nat := (doe - doe / 1460 + doe / 36524 - doe / 146096) / 365
  let y : Int := (yoe : Int) + era * 400
  let doy : Nat := doe - (365 * yoe + yoe / 4 - yoe / 100)
  let mp : Nat := (5 * doy + 2) / 153
  let d : Nat := doy - (153 * mp + 2) / 5 + 1
  let m : Nat := if mp < 10 then mp + 3 else mp - 9
  (if m ≤ 2 then y + 1 else y, m, d)

/-- A wall-clock date-time as seen in some timezone. -/
structure CivilTime where
  year : Int
  month : Nat
  day : Nat
  hour : Nat
  minute : Nat
  second : Nat
deriving DecidableEq, Repr

/-- Wall-clock time of instant `t` in a fixed-offset zone (`zone` seconds
east of UTC); models `moment.tz` / `Date` field accessors. -/
def localCivil (t zone : Int) : CivilTime :=
  let loc := t + zone
  let days := loc.fdiv 86400
  let sod := (loc.emod 86400).toNat
  let c := civilFromDays days
  ⟨c.1, c.2.1, c.2.2, sod / 3600, sod % 3600 / 60, sod % 60⟩

/-- Universal instant of a wall-clock time in a fixed-offset zone;
models `moment.tz(...).toDate()`. -/
def instantOfCivil (c : CivilTime) (zone : Int) : Int :=
  daysFromCivil c.year c.month c.day * 86400
    + ((c.hour * 3600 + c.minute * 60 + c.second : Nat) : Int) - zone

/-- `Date.prototype.getFullYear()`: the calendar year of instant `t` as
seen in the server's local timezone. -/
def getFullYear (serverZone t : Int) : Int :=
  (localCivil t serverZone).year

/-- `moment.tz(timezone).hour(9).minute(0).second(0).toDate()`: keep the
current local date in `zone`, set the time of day to 09:00:00. -/
def momentSetTime9 (now zone : Int) : Int :=
  instantOfCivil { localCivil now zone with hour := 9, minute := 0, second := 0 } zone

/-- `MessageStatus` enum of `birthday-message.entity.ts`. -/
inductive MessageStatus where
  | pending
  | queued
  | sent
  | failed
deriving DecidableEq, Repr

/-- `User` entity (fields the delivery pipeline reads). -/
structure User where
  id : String
  firstName : String
  lastName : String
  email : String
deriving DecidableEq, Repr

/-- `BirthdayMessage` entity: one delivery record per (user, year).
`user` is the eager-loaded relation (`relations: ['user']`); the
`messageType` column (constant `birthday` here) is omitted.  Timestamps
are seconds since epoch. -/
structure BirthdayMessage where
  id : String
  userId : String
  user : Option User
  year : Int
  status : MessageStatus
  scheduledFor : Int
  sentAt : Option Int
  attempts : Nat
  lastError : Option String
  createdAt : Int
  updatedAt : Int
deriving DecidableEq, Repr

/-- The ledger table: rows of `birthday_messages`. -/
abbrev Ledger := List BirthdayMessage

/-- `messageRepository.update(messageId, partial)`: update the rows whose
primary key matches, applying the partial patch `f` (which also bumps the
`@UpdateDateColumn`). -/
def repoUpdateById (l : Ledger) (t : String) (f : BirthdayMessage → BirthdayMessage) : Ledger :=
  l.map fun m => if m.id == t then f m else m

/-- `BirthdayService.findById`: `findOne({ where: { id }, relations: ['user'] })`. -/
def findById (l : Ledger) (messageId : String) : Option BirthdayMessage :=
  l.find? fun m => m.id == messageId

/-- `BirthdayService.markAsQueued`. -/
def markAsQueued (l : Ledger) (messageId : String) (now : Int) : Ledger :=
  repoUpdateById l messageId fun m => { m with status := .queued, updatedAt := now }

/-- `BirthdayService.markAsSent`. -/
def markAsSent (l : Ledger) (messageId : String) (now : Int) : Ledger :=
  repoUpdateById l messageId fun m =>
    { m with status := .sent, sentAt := some now, updatedAt := now }

/-- First half of `BirthdayService.markAsFailed`:
`messageRepository.increment({ id: messageId }, 'attempts', 1)` — a raw
SQL increment that does not touch the update-date column. -/
def incrementAttempts (l : Ledger) (messageId : String) : Ledger :=
  l.map fun m => if m.id == messageId then { m with attempts := m.attempts + 1 } else m

/-- Second half of `BirthdayService.markAsFailed`: the status / lastError
update. -/
def markAsFailedUpdate (l : Ledger) (messageId error : String) (now : Int) : Ledger :=
  repoUpdateById l messageId fun m =>
    { m with status := .failed, lastError := some error, updatedAt := now }

/-- `BirthdayService.markAsFailed`: the increment query followed by the
status update query (two separate statements in the source). -/
def markAsFailed (l : Ledger) (messageId error : String) (now : Int) : Ledger :=
  markAsFailedUpdate (incrementAttempts l messageId) messageId error now

/-- `BirthdayService.resetToPending`. -/
def resetToPending (l : Ledger) (messageId : String) (now : Int) : Ledger :=
  repoUpdateById l messageId fun m => { m with status := .pending, updatedAt := now }

/-- `BirthdayService.getFailedMessagesForRetry`: select rows with
`status = failed` ordered by `updatedAt` ascending, `take` at most
`limit` of them, then (in application code) keep those with
`attempts < maxAttempts`. -/
def getFailedMessagesForRetry (l : Ledger) (maxAttempts : Nat := 5) (limit : Nat := 100) : List BirthdayMessage :=
  ((((l.filter fun m => m.status == .failed).insertionSort
      fun a b => a.updatedAt ≤ b.updatedAt).take limit).filter
    fun m => m.attempts < maxAttempts)

/-- A database error as surfaced by the driver; `code` is the SQLSTATE,
`"23505"` being a uniqueness violation. -/
structure DbErr where
  code : String
deriving DecidableEq, Repr

/-- `messageRepository.save` under the `@Unique(['userId','year'])`
constraint.  `dbFailure` injects an infrastructure error (connection
loss etc.); otherwise the insert fails with SQLSTATE 23505 exactly when a
row for the same (userId, year) is already present. -/
def repoSave (l : Ledger) (msg : BirthdayMessage) (dbFailure : Option DbErr) :
    Except DbErr Ledger :=
  match dbFailure with
  | some e => .error e
  | none =>
      if l.any fun m => m.userId == msg.userId && m.year == msg.year then
        .error ⟨"23505"⟩
      else
        .ok (msg :: l)

/-- `BirthdayService.createBirthdayMessage`.  `ledgerAtCheck` is the table
as seen by the duplicate pre-check (`findOne`) and `ledgerAtSave` the
table as seen by the insert — they differ exactly when a concurrent
scanner inserted between the two statements.  A 23505 error from the
insert is caught and turned into `none`; other errors are rethrown. -/
def createBirthdayMessage (ledgerAtCheck ledgerAtSave : Ledger) (user : User)
    (scheduledFor serverZone : Int) (newId : String) (now : Int)
    (dbFailure : Option DbErr) :
    Except DbErr (Option BirthdayMessage × Ledger) :=
  let year := getFullYear serverZone scheduledFor
  match ledgerAtCheck.find? (fun m => m.userId == user.id && m.year == year) with
  | some _ => .ok (none, ledgerAtSave)
  | none =>
      let msg : BirthdayMessage :=
        { id := newId, userId := user.id, user := none, year := year
          status := .pending, scheduledFor := scheduledFor, sentAt := none
          attempts := 0, lastError := none, createdAt := now, updatedAt := now }
      match repoSave ledgerAtSave msg dbFailure with
      | .ok l => .ok (some msg, l)
      | .error e => if e.code == "23505" then .ok (none, ledgerAtSave) else .error e

/-- The Redis lock store: (key, expiry instant) pairs.  An entry is live
while `now < expiry`; stale entries count as absent. -/
abbrev LockStore := List (String × Int)

/-- `LockService.acquireLock`: `SET key value NX EX ttl` — succeeds only
when no unexpired entry for the key exists. -/
def acquireLock (locks : LockStore) (key : String) (ttlSeconds now : Int) :
    Bool × LockStore :=
  if locks.any fun kv => kv.1 == key && decide (now < kv.2) then
    (false, locks)
  else
    (true, (key, now + ttlSeconds) :: locks)

/-- `LockService.releaseLock`: `DEL key`, unconditional. -/
def releaseLock (locks : LockStore) (key : String) : LockStore :=
  locks.filter fun kv => kv.1 != key

/-- `BirthdayMessagePayload` of the producer: the queue wire format. -/
structure Payload where
  messageId : String
  userId : String
  email : String
  fullName : String
deriving DecidableEq, Repr

/-- `MAX_RETRY_ATTEMPTS` of the consumer. -/
def MAX_RETRY_ATTEMPTS : Nat := 5

/-- `RETRY_DELAYS` backoff schedule of the consumer, in milliseconds. -/
def RETRY_DELAYS : List Nat := [1000, 5000, 15000, 60000, 300000]

/-- `RETRY_DELAYS[attempts] || RETRY_DELAYS[RETRY_DELAYS.length - 1]`:
an out-of-range index yields `undefined`, so the `||` falls back to the
last schedule entry (all entries are truthy). -/
def retryDelay (attempts : Nat) : Nat :=
  match RETRY_DELAYS.get? attempts with
  | some d => d
  | none => RETRY_DELAYS.getD (RETRY_DELAYS.length - 1) 0

/-- Exceptions `processMessage` can throw: the explicit lock-contention
error, or the email service failing (non-2xx / timeout). -/
inductive ProcError where
  | lockNotAcquired
  | emailFailed
deriving DecidableEq, Repr

/-- The `Error.message` text `handleFailure` records for each exception;
the email service's message text is abstracted by a fixed string. -/
def procErrorText : ProcError → String
  | .lockNotAcquired => "Could not acquire processing lock"
  | .emailFailed => "Failed to send birthday email"

/-- `BirthdayConsumerService.processMessage`.  `emailOk` is the oracle
for the external notifier call.  Returns (thrown error or unit, ledger,
lock store, whether the notifier was called).  The per-record lock is
released in the `finally` on every path past acquisition. -/
def processMessage (payload : Payload) (ledger : Ledger) (locks : LockStore)
    (emailOk : Bool) (now : Int) :
    Except ProcError Unit × Ledger × LockStore × Bool :=
  let lockKey := "process-" ++ payload.messageId
  match acquireLock locks lockKey 120 now with
  | (false, locks1) => (.error .lockNotAcquired, ledger, locks1, false)
  | (true, locks1) =>
      match findById ledger payload.messageId with
      | none => (.ok (), ledger, releaseLock locks1 lockKey, false)
      | some message =>
          if message.status == .sent then
            (.ok (), ledger, releaseLock locks1 lockKey, false)
          else if emailOk then
            (.ok (), markAsSent ledger payload.messageId now,
              releaseLock locks1 lockKey, true)
          else
            (.error .emailFailed, ledger, releaseLock locks1 lockKey, true)

/-- Fate of a queue entry after one delivery: `ack` (removed),
`nack` with requeue after a delay, or `reject` without requeue (routed to
the dead-letter queue by the `x-dead-letter-routing-key` binding). -/
inductive QueueOutcome where
  | acked
  | requeued (delayMs : Nat)
  | deadLettered
deriving DecidableEq, Repr

/-- `BirthdayConsumerService.handleFailure`: read the record's attempt
count; at or above `MAX_RETRY_ATTEMPTS` mark failed and reject to the
DLQ, otherwise mark failed and nack with the backoff delay. -/
def handleFailure (payload : Payload) (ledger : Ledger) (errorText : String)
    (now : Int) : QueueOutcome × Ledger :=
  let attempts := ((findById ledger payload.messageId).map (·.attempts)).getD 0
  if MAX_RETRY_ATTEMPTS ≤ attempts then
    (.deadLettered, markAsFailed ledger payload.messageId errorText now)
  else
    (.requeued (retryDelay attempts), markAsFailed ledger payload.messageId errorText now)

/-- One delivery as handled by the `channel.consume` callback of
`startConsuming`: `processMessage` then `ack`, or on a thrown error
`handleFailure`.  Returns (queue outcome, ledger, lock store, whether the
notifier was called). -/
def consumeEntry (payload : Payload) (ledger : Ledger) (locks : LockStore)
    (emailOk : Bool) (now : Int) :
    QueueOutcome × Ledger × LockStore × Bool :=
  match processMessage payload ledger locks emailOk now with
  | (.ok _, l, k, e) => (.acked, l, k, e)
  | (.error err, l, k, e) =>
      let r := handleFailure payload l (procErrorText err) now
      (r.1, r.2, k, e)

/-- `n` consecutive deliveries of the same queue entry with the notifier
failing every time (the lock store is threaded through, so each delivery
re-acquires the lock its predecessor released).  Returns the outcome of
the last delivery and the final ledger / lock store. -/
def consumeFailN (payload : Payload) (now : Int) :
    Nat → Ledger × LockStore → QueueOutcome × Ledger × LockStore
  | 0, st => (.acked, st.1, st.2)
  | n + 1, st =>
      let r := consumeEntry payload st.1 st.2 false now
      match n with
      | 0 => (r.1, r.2.1, r.2.2.1)
      | _ + 1 => consumeFailN payload now n (r.2.1, r.2.2.1)

/-- The per-recipient-per-year lock key of the scanner:
`birthday-user-{user.id}-{new Date().getFullYear()}` — note the year is
the server-zone year of the current instant. -/
def userLockKey (user : User) (serverZone now : Int) : String :=
  "birthday-user-" ++ user.id ++ "-" ++ toString (getFullYear serverZone now)

/-- How one scanner step for one matched recipient ended. -/
inductive ScanOutcome where
  | lockBusy
  | created (msg : BirthdayMessage)
  | duplicate
  | errored (e : DbErr)
deriving DecidableEq, Repr

/-- Result of one `createAndQueueBirthdayMessage` step:
`ledgerConsulted` records whether the message ledger was read at all. -/
structure ScanResult where
  outcome : ScanOutcome
  ledger : Ledger
  locks : LockStore
  queue : List Payload
  ledgerConsulted : Bool
deriving DecidableEq, Repr

/-- `BirthdaySchedulerService.createAndQueueBirthdayMessage`: acquire the
per-user lock (TTL 300 s) and return at once if busy; compute the 09:00
local instant; create the record; if created, publish the payload and
mark the record queued.  The `finally` block deliberately does not
release the lock, so it is retained on the created, duplicate and
errored paths alike. -/
def createAndQueueBirthdayMessage (user : User) (timezone serverZone : Int)
    (ledgerAtCheck ledgerAtSave : Ledger) (locks : LockStore)
    (queue : List Payload) (newId : String) (now : Int)
    (dbFailure : Option DbErr) : ScanResult :=
  let key := userLockKey user serverZone now
  match acquireLock locks key 300 now with
  | (false, locks1) =>
      { outcome := .lockBusy, ledger := ledgerAtSave, locks := locks1
        queue := queue, ledgerConsulted := false }
  | (true, locks1) =>
      let scheduledFor := momentSetTime9 now timezone
      match createBirthdayMessage ledgerAtCheck ledgerAtSave user scheduledFor
          serverZone newId now dbFailure with
      | .error e =>
          { outcome := .errored e, ledger := ledgerAtSave, locks := locks1
            queue := queue, ledgerConsulted := true }
      | .ok (none, l) =>
          { outcome := .duplicate, ledger := l, locks := locks1
            queue := queue, ledgerConsulted := true }
      | .ok (some msg, l) =>
          let payload : Payload :=
            { messageId := msg.id, userId := user.id, email := user.email
              fullName := user.firstName ++ " " ++ user.lastName }
          { outcome := .created msg, ledger := markAsQueued l msg.id now
            locks := locks1, queue := queue ++ [payload], ledgerConsulted := true }

/-- Loop body of `RecoveryService.retryFailedMessages` for one fetched
message: skip it if the user relation is missing, otherwise reset to
pending, publish the payload, mark queued. -/
def retryStep (now : Int) (st : Ledger × List Payload) (message : BirthdayMessage) :
    Ledger × List Payload :=
  match message.user with
  | none => st
  | some u =>
      let l1 := resetToPending st.1 message.id now
      let q1 := st.2 ++ [{ messageId := message.id, userId := message.userId
                           email := u.email
                           fullName := u.firstName ++ " " ++ u.lastName : Payload }]
      (markAsQueued l1 message.id now, q1)

/-- `RecoveryService.retryFailedMessages`: fetch the retryable failed
messages (`maxAttempts = MAX_RETRY_ATTEMPTS`, default row limit 100) and
process each in order. -/
def retryFailedMessages (ledger : Ledger) (queue : List Payload) (now : Int) :
    Ledger × List Payload :=
  (getFailedMessagesForRetry ledger MAX_RETRY_ATTEMPTS).foldl (retryStep now) (ledger, queue)

/-! ## Helper lemmas -/

lemma findById_repoUpdateById_self (l : Ledger) (t : String)
    (f : BirthdayMessage → BirthdayMessage) (hf : ∀ m, (f m).id = m.id) :
    findById (repoUpdateById l t f) t = (findById l t).map f := by
  unfold findById repoUpdateById
  rw [List.find?_map]
  have hpred : (fun m : BirthdayMessage =>
      ((fun m => if m.id == t then f m else m) m).id == t) = fun m => m.id == t := by
    funext m
    by_cases h : m.id = t <;> simp [h, hf]
  rw [show ((fun m : BirthdayMessage => m.id == t) ∘ fun m => if m.id == t then f m else m)
      = fun m => m.id == t from hpred]
  cases hfind : l.find? (fun m => m.id == t) with
  | none => rfl
  | some a =>
      have ha := List.find?_some hfind
      simp only [beq_iff_eq] at ha
      simp [Option.map, ha]

lemma findById_repoUpdateById_ne (l : Ledger) (s t : String)
    (f : BirthdayMessage → BirthdayMessage) (hf : ∀ m, (f m).id = m.id)
    (hne : s ≠ t) :
    findById (repoUpdateById l s f) t = findById l t := by
  unfold findById repoUpdateById
  rw [List.find?_map]
  have hpred : ((fun m : BirthdayMessage => m.id == t) ∘ fun m => if m.id == s then f m else m)
      = fun m => m.id == t := by
    funext m
    by_cases h : m.id = s <;> simp [h, hf]
  rw [hpred]
  cases hfind : l.find? (fun m => m.id == t) with
  | none => rfl
  | some a =>
      have ha := List.find?_some hfind
      simp only [beq_iff_eq] at ha
      have hna : ¬ a.id = s := by rw [ha]; exact fun h => hne h.symm
      simp [Option.map, hna]

lemma incrementAttempts_eq_repoUpdateById (l : Ledger) (t : String) :
    incrementAttempts l t
      = repoUpdateById l t (fun m => { m with attempts := m.attempts + 1 }) := rfl

lemma findById_eq_of_mem_nodup (l : Ledger) (m : BirthdayMessage)
    (hm : m ∈ l) (hnd : (l.map (·.id)).Nodup) : findById l m.id = some m := by
  induction l with
  | nil => cases hm
  | cons a l ih =>
      rcases List.mem_cons.mp hm with h | h
      · subst h
        simp [findById]
      · have hnd' := hnd
        rw [List.map_cons, List.nodup_cons] at hnd'
        have hne : ¬ a.id = m.id := fun he =>
          hnd'.1 (he ▸ List.mem_map.mpr ⟨m, h, rfl⟩)
        unfold findById
        rw [List.find?_cons_of_neg _ (by simpa using hne)]
        exact ih h hnd'.2

/-! ## Concrete fixtures used by counterexamples and witnesses -/

/-- A fixture user. -/
def exUser : User :=
  { id := "u1", firstName := "Ada", lastName := "L", email := "ada@example.com" }

/-- A fixture delivery record in status `queued` with no attempts yet. -/
def exMsg : BirthdayMessage :=
  { id := "m1", userId := "u1", user := some exUser, year := 2025, status := .queued
    scheduledFor := 100, sentAt := none, attempts := 0, lastError := none
    createdAt := 0, updatedAt := 0 }

/-- The queue payload for `exMsg`. -/
def exPayload : Payload :=
  { messageId := "m1", userId := "u1", email := "ada@example.com", fullName := "Ada L" }

/-- A fixture `failed` record whose attempts are exhausted; `i` makes the
id, user id and `updatedAt` distinct. -/
def exhaustedMsg (i : Nat) : BirthdayMessage :=
  { id := "x" ++ toString i, userId := "v" ++ toString i, user := some exUser
    year := 2025, status := .failed, scheduledFor := 0, sentAt := none
    attempts := 5, lastError := some "boom", createdAt := 0, updatedAt := i }

/-- A fixture `failed` record still below the attempt ceiling, with the
largest `updatedAt` of the fixtures. -/
def retryableMsg : BirthdayMessage :=
  { id := "r1", userId := "w1", user := some exUser, year := 2025, status := .failed
    scheduledFor := 0, sentAt := none, attempts := 2, lastError := some "boom"
    createdAt := 0, updatedAt := 100 }

/-- A ledger of 100 exhausted failed records followed by one retryable
one — all 100 exhausted rows have earlier `updatedAt`, so they fill the
retry query's row window. -/
def bigLedger : Ledger := (List.range 100).map exhaustedMsg ++ [retryableMsg]

/-! ## Claims -/

/-- C6 counterexample: `markAsFailed` is not a single indivisible update.
The state after its first statement (the attempts increment) differs both
from the initial ledger and from the final ledger, so a half-applied
state (attempt count bumped, status and error not yet written) is
observable between the two statements. -/
theorem c6_markAsFailed_not_atomic_cex :
    incrementAttempts [exMsg] "m1" ≠ [exMsg] ∧
    incrementAttempts [exMsg] "m1" ≠ markAsFailed [exMsg] "m1" "boom" 7 := by
  decide

/-- C6 (amended): `markAsFailed` leaves the record with status `failed`,
the given error text recorded and the attempt count incremented by
exactly one (all other entity columns untouched), but it does so with two
separate repository statements — the attempts increment followed by the
status/error update — not as one indivisible write. -/
theorem c6_markAsFailed_amended :
    ∀ (l : Ledger) (messageId error : String) (now : Int),
      findById (markAsFailed l messageId error now) messageId
        = (findById l messageId).map (fun m =>
            { m with status := .failed, lastError := some error
                     attempts := m.attempts + 1, updatedAt := now }) ∧
      markAsFailed l messageId error now
        = markAsFailedUpdate (incrementAttempts l messageId) messageId error now := by
  intro l messageId error now
  refine ⟨?_, rfl⟩
  unfold markAsFailed markAsFailedUpdate
  rw [incrementAttempts_eq_repoUpdateById,
    findById_repoUpdateById_self _ _ _ (by intro m; rfl),
    findById_repoUpdateById_self _ _ _ (by intro m; rfl),
    Option.map_map]
  rfl

/-- C7: for every failed delivery whose record's attempt count is below
the ceiling, `handleFailure` requeues with the delay drawn from the fixed
backoff schedule `RETRY_DELAYS = [1s, 5s, 15s, 60s, 300s]` indexed by the
attempt count; and the delay expression clamps to the last entry (300s)
whenever the index is past the end of the schedule. -/
theorem c7_backoff_schedule :
    (∀ (payload : Payload) (ledger : Ledger) (errText : String) (now : Int)
        (m : BirthdayMessage),
        findById ledger payload.messageId = some m →
        m.attempts < MAX_RETRY_ATTEMPTS →
        (handleFailure payload ledger errText now).1
          = .requeued (RETRY_DELAYS.getD m.attempts 0)) ∧
    (∀ k, RETRY_DELAYS.length ≤ k → retryDelay k = 300000) := by
  constructor
  · intro payload ledger errText now m hfind hlt
    unfold handleFailure
    rw [hfind]
    simp only [Option.map_some', Option.getD_some]
    rw [if_neg (by omega)]
    have hk : m.attempts < RETRY_DELAYS.length := hlt
    unfold retryDelay
    cases hget : RETRY_DELAYS.get? m.attempts with
    | none =>
        exfalso
        have := List.get?_eq_none.mp hget
        omega
    | some d =>
        have hd : RETRY_DELAYS.getD m.attempts 0 = d := by
          rw [List.getD_eq_getElem?_getD, ← List.get?_eq_getElem?, hget]
          rfl
        rw [hd]
  · intro k hk
    unfold retryDelay
    rw [List.get?_eq_none.mpr hk]
    rfl

/-- C7 witness: a record with one prior attempt is requeued with the
second schedule entry (5s), and an index past the schedule clamps. -/
theorem c7_backoff_schedule_witness :
    (handleFailure exPayload [{ exMsg with attempts := 1 }] "boom" 9).1
      = .requeued 5000 ∧ retryDelay 9 = 300000 := by
  exact ⟨c7_backoff_schedule.1 exPayload [{ exMsg with attempts := 1 }] "boom" 9
      { exMsg with attempts := 1 } (by decide) (by decide),
    c7_backoff_schedule.2 9 (by decide)⟩

/-- C4: `createBirthdayMessage` creates and returns a new `pending`
record when no row for (recipient, year) exists; it returns `none` with
nothing created and no error raised when such a row already exists at the
pre-check — and also when the pre-check passes but the insert loses the
race and the database reports uniqueness violation 23505. -/
theorem c4_create_idempotent :
    ∀ (lc ls : Ledger) (user : User) (scheduledFor serverZone : Int)
      (newId : String) (now : Int),
      ((lc.find? (fun m => m.userId == user.id
          && m.year == getFullYear serverZone scheduledFor) = none) →
        (ls.any (fun m => m.userId == user.id
          && m.year == getFullYear serverZone scheduledFor)) = false →
        ∃ msg, createBirthdayMessage lc ls user scheduledFor serverZone newId now none
            = .ok (some msg, msg :: ls)
          ∧ msg.status = .pending ∧ msg.userId = user.id
          ∧ msg.year = getFullYear serverZone scheduledFor
          ∧ msg.scheduledFor = scheduledFor) ∧
      ((∃ m0, lc.find? (fun m => m.userId == user.id
          && m.year == getFullYear serverZone scheduledFor) = some m0) →
        createBirthdayMessage lc ls user scheduledFor serverZone newId now none
          = .ok (none, ls)) ∧
      ((lc.find? (fun m => m.userId == user.id
          && m.year == getFullYear serverZone scheduledFor) = none) →
        (ls.any (fun m => m.userId == user.id
          && m.year == getFullYear serverZone scheduledFor)) = true →
        createBirthdayMessage lc ls user scheduledFor serverZone newId now none
          = .ok (none, ls)) := by
  intro lc ls user scheduledFor serverZone newId now
  refine ⟨?_, ?_, ?_⟩
  · intro hchk hsave
    refine ⟨{ id := newId, userId := user.id, user := none
              year := getFullYear serverZone scheduledFor, status := .pending
              scheduledFor := scheduledFor, sentAt := none, attempts := 0
              lastError := none, createdAt := now, updatedAt := now },
      ?_, rfl, rfl, rfl, rfl⟩
    simp only [createBirthdayMessage]
    rw [hchk]
    simp [repoSave, hsave]
  · rintro ⟨m0, hchk⟩
    simp only [createBirthdayMessage]
    rw [hchk]
  · intro hchk hsave
    simp only [createBirthdayMessage]
    rw [hchk]
    simp [repoSave, hsave]

/-- C4 witness: on an empty ledger a pending record is created; with the
row already present the pre-check returns nothing-created; with the row
appearing only between check and save, the 23505 violation is swallowed
and nothing is created. -/
theorem c4_create_idempotent_witness :
    (∃ msg, createBirthdayMessage [] [] exUser 100 0 "id9" 100 none
        = .ok (some msg, msg :: [])
      ∧ msg.status = .pending ∧ msg.userId = exUser.id
      ∧ msg.year = getFullYear 0 100 ∧ msg.scheduledFor = 100) ∧
    createBirthdayMessage [{ exMsg with year := getFullYear 0 100 }] [] exUser 100 0 "id9" 100 none
      = .ok (none, []) ∧
    createBirthdayMessage [] [{ exMsg with year := getFullYear 0 100 }] exUser 100 0 "id9" 100 none
      = .ok (none, [{ exMsg with year := getFullYear 0 100 }]) := by
  refine ⟨(c4_create_idempotent [] [] exUser 100 0 "id9" 100).1 (by decide) (by decide),
    (c4_create_idempotent [{ exMsg with year := getFullYear 0 100 }] [] exUser 100 0 "id9" 100).2.1
      ⟨{ exMsg with year := getFullYear 0 100 }, by decide⟩,
    (c4_create_idempotent [] [{ exMsg with year := getFullYear 0 100 }] exUser 100 0 "id9" 100).2.2
      (by decide) (by decide)⟩

/-- C9: every record returned by `getFailedMessagesForRetry` has status
`failed` and attempt count strictly below `maxAttempts`, and at most
`limit` records are returned; and because the attempts filter runs after
the row limit, there is a ledger on which a retryable failed record is
omitted even though fewer than `limit` retryable records exist. -/
theorem c9_retry_query_filters :
    (∀ (l : Ledger) (maxAttempts limit : Nat) (m : BirthdayMessage),
        m ∈ getFailedMessagesForRetry l maxAttempts limit →
        m.status = .failed ∧ m.attempts < maxAttempts) ∧
    (∀ (l : Ledger) (maxAttempts limit : Nat),
        (getFailedMessagesForRetry l maxAttempts limit).length ≤ limit) ∧
    (∃ (l : Ledger) (m : BirthdayMessage) (maxAttempts limit : Nat),
        m ∈ l ∧ m.status = .failed ∧ m.attempts < maxAttempts ∧
        (l.filter fun x => x.status == .failed
          && decide (x.attempts < maxAttempts)).length < limit ∧
        m ∉ getFailedMessagesForRetry l maxAttempts limit) := by
  refine ⟨?_, ?_, ?_⟩
  · intro l maxAttempts limit m hm
    unfold getFailedMessagesForRetry at hm
    have h1 := List.mem_filter.mp hm
    have h2 := List.mem_of_mem_take h1.1
    have h3 := (List.mem_insertionSort _).mp h2
    have h4 := List.mem_filter.mp h3
    refine ⟨by simpa using h4.2, by simpa using h1.2⟩
  · intro l maxAttempts limit
    unfold getFailedMessagesForRetry
    calc _ ≤ _ := List.length_filter_le _ _
      _ ≤ limit := List.length_take_le _ _
  · exact ⟨[exhaustedMsg 0, exhaustedMsg 1, retryableMsg], retryableMsg, 5, 2,
      by decide, by decide, by decide, by decide, by decide⟩

/-- C9 witness: on a one-row ledger the single retryable failed record is
returned, satisfies the guarantees, and the row limit bounds the length. -/
theorem c9_retry_query_filters_witness :
    (retryableMsg.status = .failed ∧ retryableMsg.attempts < 5) ∧
    (getFailedMessagesForRetry [retryableMsg] 5 1).length ≤ 1 := by
  exact ⟨c9_retry_query_filters.1 [retryableMsg] 5 1 retryableMsg (by decide),
    c9_retry_query_filters.2.1 [retryableMsg] 5 1⟩

lemma handleFailure_snd (payload : Payload) (l : Ledger) (errText : String) (now : Int) :
    (handleFailure payload l errText now).2
      = markAsFailed l payload.messageId errText now := by
  simp only [handleFailure]
  split <;> rfl

lemma acquireLock_eq_of_fst_true (locks : LockStore) (key : String) (ttl now : Int)
    (h : (acquireLock locks key ttl now).1 = true) :
    acquireLock locks key ttl now = (true, (key, now + ttl) :: locks) := by
  unfold acquireLock at h ⊢
  split at h
  · exact absurd h (by simp)
  · rename_i hc
    rw [if_neg hc]

lemma acquireLock_eq_of_fst_false (locks : LockStore) (key : String) (ttl now : Int)
    (h : (acquireLock locks key ttl now).1 = false) :
    acquireLock locks key ttl now = (false, locks) := by
  unfold acquireLock at h ⊢
  split at h
  · rename_i hc
    rw [if_pos hc]
  · exact absurd h (by simp)

/-- C2: while the per-record processing lock is acquirable, a queue entry
whose record is missing, or whose record is already `sent`, is
acknowledged with the notifier never called and the ledger unmodified;
for any other status the notifier is called and, when it succeeds, the
record is marked `sent` and the entry acknowledged. -/
theorem c2_consume_idempotency :
    ∀ (payload : Payload) (ledger : Ledger) (locks : LockStore) (emailOk : Bool)
      (now : Int),
      (acquireLock locks ("process-" ++ payload.messageId) 120 now).1 = true →
      (findById ledger payload.messageId = none →
        (consumeEntry payload ledger locks emailOk now).1 = .acked ∧
        (consumeEntry payload ledger locks emailOk now).2.1 = ledger ∧
        (consumeEntry payload ledger locks emailOk now).2.2.2 = false) ∧
      (∀ m, findById ledger payload.messageId = some m → m.status = .sent →
        (consumeEntry payload ledger locks emailOk now).1 = .acked ∧
        (consumeEntry payload ledger locks emailOk now).2.1 = ledger ∧
        (consumeEntry payload ledger locks emailOk now).2.2.2 = false) ∧
      (∀ m, findById ledger payload.messageId = some m → m.status ≠ .sent →
        emailOk = true →
        (consumeEntry payload ledger locks emailOk now).1 = .acked ∧
        (consumeEntry payload ledger locks emailOk now).2.2.2 = true ∧
        (consumeEntry payload ledger locks emailOk now).2.1
          = markAsSent ledger payload.messageId now ∧
        (findById (consumeEntry payload ledger locks emailOk now).2.1
            payload.messageId).map (·.status) = some .sent) := by
  intro payload ledger locks emailOk now hacq
  have ha := acquireLock_eq_of_fst_true _ _ _ _ hacq
  refine ⟨?_, ?_, ?_⟩
  · intro hfind
    have hstep : consumeEntry payload ledger locks emailOk now
        = (.acked, ledger,
            releaseLock (("process-" ++ payload.messageId, now + 120) :: locks)
              ("process-" ++ payload.messageId), false) := by
      simp [consumeEntry, processMessage, ha, hfind]
    rw [hstep]
    exact ⟨rfl, rfl, rfl⟩
  · intro m hfind hsent
    have hb : (m.status == MessageStatus.sent) = true := by simp [hsent]
    have hstep : consumeEntry payload ledger locks emailOk now
        = (.acked, ledger,
            releaseLock (("process-" ++ payload.messageId, now + 120) :: locks)
              ("process-" ++ payload.messageId), false) := by
      simp [consumeEntry, processMessage, ha, hfind, hb]
    rw [hstep]
    exact ⟨rfl, rfl, rfl⟩
  · intro m hfind hsent hemail
    subst hemail
    have hb : (m.status == MessageStatus.sent) = false := by simpa using hsent
    have hstep : consumeEntry payload ledger locks true now
        = (.acked, markAsSent ledger payload.messageId now,
            releaseLock (("process-" ++ payload.messageId, now + 120) :: locks)
              ("process-" ++ payload.messageId), true) := by
      simp [consumeEntry, processMessage, ha, hfind, hb]
    rw [hstep]
    refine ⟨rfl, rfl, rfl, ?_⟩
    show (findById (markAsSent ledger payload.messageId now) payload.messageId).map (·.status)
      = some .sent
    unfold markAsSent
    rw [findById_repoUpdateById_self _ _ _ (by intro x; rfl), hfind]
    rfl

/-- C2 witness: with a free lock store, a `queued` record is sent and
acknowledged on notifier success. -/
theorem c2_consume_idempotency_witness :
    (consumeEntry exPayload [exMsg] [] true 50).1 = .acked ∧
    (consumeEntry exPayload [exMsg] [] true 50).2.2.2 = true ∧
    (consumeEntry exPayload [exMsg] [] true 50).2.1 = markAsSent [exMsg] "m1" 50 ∧
    (findById (consumeEntry exPayload [exMsg] [] true 50).2.1 "m1").map (·.status)
      = some .sent := by
  exact (c2_consume_idempotency exPayload [exMsg] [] true 50 (by decide)).2.2 exMsg
    (by decide) (by decide) rfl

/-- C3 counterexample: with another worker holding the processing lock
(lock store holds an unexpired `process-m1` entry), handling the queue
entry does modify the `DeliveryRecord`: the consumer's catch block runs
`handleFailure`, which marks the record `failed`, increments the attempt
count and records the lock error — so the attempt does touch the ledger,
contradicting the claim that no field is modified. -/
theorem c3_lock_contention_touches_ledger_cex :
    (findById (consumeEntry exPayload [exMsg] [("process-m1", 100)] true 50).2.1 "m1").map
        (fun m => (m.status, m.attempts, m.lastError))
      = some (.failed, 1, some "Could not acquire processing lock") ∧
    (consumeEntry exPayload [exMsg] [("process-m1", 100)] true 50).2.1 ≠ [exMsg] := by
  decide

/-- C3 (amended): when the processing lock cannot be acquired,
`processMessage` itself throws without touching the ledger and without
calling the notifier — but the consume callback catches the error and
runs `handleFailure`, so the attempt as a whole marks the record
`failed`, increments its attempt count and records the lock error before
requeuing or dead-lettering it. -/
theorem c3_lock_contention_amended :
    ∀ (payload : Payload) (ledger : Ledger) (locks : LockStore) (emailOk : Bool)
      (now : Int),
      (acquireLock locks ("process-" ++ payload.messageId) 120 now).1 = false →
      processMessage payload ledger locks emailOk now
        = (.error .lockNotAcquired, ledger, locks, false) ∧
      (consumeEntry payload ledger locks emailOk now).2.1
        = markAsFailed ledger payload.messageId "Could not acquire processing lock" now ∧
      (consumeEntry payload ledger locks emailOk now).2.2.2 = false := by
  intro payload ledger locks emailOk now hacq
  have ha := acquireLock_eq_of_fst_false _ _ _ _ hacq
  have hp : processMessage payload ledger locks emailOk now
      = (.error .lockNotAcquired, ledger, locks, false) := by
    simp only [processMessage, ha]
  refine ⟨hp, ?_, ?_⟩
  · simp only [consumeEntry, hp]
    exact handleFailure_snd payload ledger _ now
  · simp only [consumeEntry, hp]

/-- C3 amended witness: the concrete contended run — `processMessage`
fails cleanly, the overall attempt rewrites the record. -/
theorem c3_lock_contention_amended_witness :
    processMessage exPayload [exMsg] [("process-m1", 100)] true 50
      = (.error .lockNotAcquired, [exMsg], [("process-m1", 100)], false) ∧
    (consumeEntry exPayload [exMsg] [("process-m1", 100)] true 50).2.1
      = markAsFailed [exMsg] "m1" "Could not acquire processing lock" 50 ∧
    (consumeEntry exPayload [exMsg] [("process-m1", 100)] true 50).2.2.2 = false := by
  exact c3_lock_contention_amended exPayload [exMsg] [("process-m1", 100)] true 50 (by decide)

/-- C1: the code's dead-letter check reads the attempt count before the
failure that is being handled is recorded, so a record that has just
failed its 5th consecutive attempt (attempt count now 5) is still
negatively acknowledged with requeue — a 6th automatic delivery happens.
Only the 6th failure is rejected to the dead-letter queue, and by then
`markAsFailed` has run a 6th time, leaving the record with status
`failed`, attempt count 6 (not 5) and the error text recorded; from
attempt count 5 on, the Reconciler's retry query no longer returns it. -/
theorem c1_sixth_failure_dead_letters :
    (consumeFailN exPayload 1000 5 ([exMsg], [])).1 = .requeued 300000 ∧
    (consumeFailN exPayload 1000 6 ([exMsg], [])).1 = .deadLettered ∧
    (findById (consumeFailN exPayload 1000 6 ([exMsg], [])).2.1 "m1").map
        (fun m => (m.status, m.attempts, m.lastError))
      = some (.failed, 6, some "Failed to send birthday email") ∧
    getFailedMessagesForRetry (consumeFailN exPayload 1000 5 ([exMsg], [])).2.1
      MAX_RETRY_ATTEMPTS 100 = [] ∧
    getFailedMessagesForRetry (consumeFailN exPayload 1000 6 ([exMsg], [])).2.1
      MAX_RETRY_ATTEMPTS 100 = [] := by
  decide

/-- C10: the scanner's per-recipient-per-year lock is not released on any
completed path (created, duplicate or errored); the entry stays in the
lock store with its 300-second expiry, a rescan before that expiry
returns at the lock-acquisition step without consulting the ledger or
publishing to the queue and changes nothing, and once the TTL has passed
the key is acquirable again. -/
theorem c10_scanner_lock_retention :
    ∀ (user : User) (tz serverZone : Int) (lc ls lc2 ls2 : Ledger)
      (locks : LockStore) (queue queue2 : List Payload) (newId newId2 : String)
      (now t2 t3 : Int) (dbF dbF2 : Option DbErr),
      (acquireLock locks (userLockKey user serverZone now) 300 now).1 = true →
      t2 < now + 300 →
      now + 300 ≤ t3 →
      userLockKey user serverZone t2 = userLockKey user serverZone now →
      (createAndQueueBirthdayMessage user tz serverZone lc ls locks queue newId now dbF).outcome
          ≠ .lockBusy ∧
      (userLockKey user serverZone now, now + 300)
          ∈ (createAndQueueBirthdayMessage user tz serverZone lc ls locks queue newId now dbF).locks ∧
      createAndQueueBirthdayMessage user tz serverZone lc2 ls2
          (createAndQueueBirthdayMessage user tz serverZone lc ls locks queue newId now dbF).locks
          queue2 newId2 t2 dbF2
        = { outcome := .lockBusy, ledger := ls2
            locks := (createAndQueueBirthdayMessage user tz serverZone lc ls locks queue newId now dbF).locks
            queue := queue2, ledgerConsulted := false } ∧
      (acquireLock
          (createAndQueueBirthdayMessage user tz serverZone lc ls locks queue newId now dbF).locks
          (userLockKey user serverZone now) 300 t3).1 = true := by
  intro user tz serverZone lc ls lc2 ls2 locks queue queue2 newId newId2 now t2 t3
    dbF dbF2 hacq ht2 ht3 hk2
  have ha := acquireLock_eq_of_fst_true _ _ _ _ hacq
  have hfree : (locks.any fun kv =>
      kv.1 == userLockKey user serverZone now && decide (now < kv.2)) = false := by
    cases hc : (locks.any fun kv =>
        kv.1 == userLockKey user serverZone now && decide (now < kv.2)) with
    | false => rfl
    | true =>
        unfold acquireLock at hacq
        rw [hc] at hacq
        simp at hacq
  have hr : (createAndQueueBirthdayMessage user tz serverZone lc ls locks queue newId now dbF).locks
      = (userLockKey user serverZone now, now + 300) :: locks ∧
      (createAndQueueBirthdayMessage user tz serverZone lc ls locks queue newId now dbF).outcome
        ≠ .lockBusy := by
    refine ⟨?_, ?_⟩ <;> (simp only [createAndQueueBirthdayMessage, ha]; split <;> simp)
  refine ⟨hr.2, ?_, ?_, ?_⟩
  · rw [hr.1]
    exact List.mem_cons_self _ _
  · rw [hr.1]
    have hbusy : acquireLock ((userLockKey user serverZone now, now + 300) :: locks)
        (userLockKey user serverZone now) 300 t2
        = (false, (userLockKey user serverZone now, now + 300) :: locks) := by
      simp [acquireLock, ht2]
    simp only [createAndQueueBirthdayMessage, hk2, hbusy]
  · rw [hr.1]
    unfold acquireLock
    rw [if_neg]
    intro hcon
    rw [List.any_eq_true] at hcon
    obtain ⟨kv, hkv, hp⟩ := hcon
    rcases List.mem_cons.mp hkv with h | h
    · subst h
      simp at hp
      omega
    · simp only [Bool.and_eq_true, beq_iff_eq, decide_eq_true_eq] at hp
      obtain ⟨hp1, hp2⟩ := hp
      have hone := (List.any_eq_false.mp hfree) kv h
      rw [hp1] at hone
      simp at hone
      omega

/-- C10 witness: concrete run at `now = 1000` with an empty lock store;
the second scan at 1200 is blocked, at 1300 the key is free again. -/
theorem c10_scanner_lock_retention_witness :
    (createAndQueueBirthdayMessage exUser 0 0 [] [] [] [] "id1" 1000 none).outcome
        ≠ .lockBusy ∧
    (userLockKey exUser 0 1000, 1300)
        ∈ (createAndQueueBirthdayMessage exUser 0 0 [] [] [] [] "id1" 1000 none).locks ∧
    createAndQueueBirthdayMessage exUser 0 0 [] []
        (createAndQueueBirthdayMessage exUser 0 0 [] [] [] [] "id1" 1000 none).locks
        [] "id2" 1200 none
      = { outcome := .lockBusy, ledger := []
          locks := (createAndQueueBirthdayMessage exUser 0 0 [] [] [] [] "id1" 1000 none).locks
          queue := [], ledgerConsulted := false } ∧
    (acquireLock (createAndQueueBirthdayMessage exUser 0 0 [] [] [] [] "id1" 1000 none).locks
        (userLockKey exUser 0 1000) 300 1300).1 = true := by
  have h := c10_scanner_lock_retention exUser 0 0 [] [] [] [] [] [] [] "id1" "id2"
    1000 1200 1300 none none (by decide) (by decide) (by decide) (by decide)
  exact h

lemma createBirthdayMessage_some (lc ls : Ledger) (user : User)
    (sf sz : Int) (newId : String) (now : Int) (dbF : Option DbErr)
    (msg : BirthdayMessage) (l : Ledger)
    (h : createBirthdayMessage lc ls user sf sz newId now dbF = .ok (some msg, l)) :
    msg = { id := newId, userId := user.id, user := none, year := getFullYear sz sf
            status := .pending, scheduledFor := sf, sentAt := none, attempts := 0
            lastError := none, createdAt := now, updatedAt := now }
      ∧ l = msg :: ls := by
  simp only [createBirthdayMessage] at h
  split at h
  · simp at h
  · split at h
    · rename_i l0 heq
      simp only [Except.ok.injEq, Prod.mk.injEq, Option.some.injEq] at h
      obtain ⟨h1, h2⟩ := h
      subst h1
      unfold repoSave at heq
      split at heq
      · simp at heq
      · split at heq
        · simp at heq
        · simp only [Except.ok.injEq] at heq
          exact ⟨rfl, by rw [← h2, ← heq]⟩
    · rename_i e heq
      split at h
      · simp at h
      · simp at h

/-- C5 counterexample: a recipient in a UTC+14 zone scanned at their
local 2025-01-01 09:00:00 (which is 2024-12-31 19:00:00 UTC), with the
server clock in UTC, gets a `DeliveryRecord` keyed `year = 2024` — the
server-zone year of the scheduled instant — while the recipient's
current local year is 2025, refuting the claim that the record is keyed
by the recipient's current local year. -/
theorem c5_server_year_cex :
    (createAndQueueBirthdayMessage exUser (14 * 3600) 0 [] [] [] [] "id1"
        (20089 * 86400 - 18000) none).outcome
      = .created { id := "id1", userId := "u1", user := none, year := 2024
                   status := .pending, scheduledFor := 20089 * 86400 - 18000
                   sentAt := none, attempts := 0, lastError := none
                   createdAt := 20089 * 86400 - 18000
                   updatedAt := 20089 * 86400 - 18000 } ∧
    (localCivil (20089 * 86400 - 18000) (14 * 3600)).year = 2025 ∧
    (localCivil (20089 * 86400 - 18000) (14 * 3600)).hour = 9 ∧
    (localCivil (20089 * 86400 - 18000) (14 * 3600)).minute = 0 ∧
    (2024 : Int) ≠ 2025 := by
  decide

/-- C5 (amended): for every recipient for whom the scanner creates a
record, the scheduled-for instant is the universal instant of 09:00:00
local on the recipient's current local date (as the claim states), but
the record is keyed by the calendar year of that instant evaluated in
the server's timezone (`Date.getFullYear` of `scheduledFor`), which
matches the recipient's current local year only when the two zones agree
on the year of that instant. -/
theorem c5_scheduling_amended :
    ∀ (user : User) (tz serverZone : Int) (lc ls : Ledger) (locks : LockStore)
      (queue : List Payload) (newId : String) (now : Int) (dbF : Option DbErr)
      (msg : BirthdayMessage),
      (createAndQueueBirthdayMessage user tz serverZone lc ls locks queue newId now dbF).outcome
          = .created msg →
      msg.scheduledFor
          = instantOfCivil { localCivil now tz with hour := 9, minute := 0, second := 0 } tz ∧
      msg.year = (localCivil msg.scheduledFor serverZone).year ∧
      msg.status = .pending := by
  intro user tz serverZone lc ls locks queue newId now dbF msg hout
  simp only [createAndQueueBirthdayMessage] at hout
  split at hout
  · simp at hout
  · split at hout
    · simp at hout
    · simp at hout
    · rename_i msg0 l0 heq
      simp only [ScanOutcome.created.injEq] at hout
      subst hout
      obtain ⟨h1, _⟩ := createBirthdayMessage_some _ _ _ _ _ _ _ _ _ _ heq
      subst h1
      exact ⟨rfl, rfl, rfl⟩

/-- C5 amended witness: a mid-year scan (2025-06-15 09:00 local, UTC+14
recipient, UTC server) creates a record scheduled at local 09:00 whose
key year is the server-zone year of that instant. -/
theorem c5_scheduling_amended_witness :
    ({ id := "id1", userId := "u1", user := none, year := 2025
       status := .pending, scheduledFor := 20254 * 86400 - 18000
       sentAt := none, attempts := 0, lastError := none
       createdAt := 20254 * 86400 - 18000
       updatedAt := 20254 * 86400 - 18000 } : BirthdayMessage).scheduledFor
        = instantOfCivil
            { localCivil (20254 * 86400 - 18000) (14 * 3600) with
                hour := 9, minute := 0, second := 0 } (14 * 3600) ∧
    ({ id := "id1", userId := "u1", user := none, year := 2025
       status := .pending, scheduledFor := 20254 * 86400 - 18000
       sentAt := none, attempts := 0, lastError := none
       createdAt := 20254 * 86400 - 18000
       updatedAt := 20254 * 86400 - 18000 } : BirthdayMessage).year
        = (localCivil (20254 * 86400 - 18000) 0).year ∧
    ({ id := "id1", userId := "u1", user := none, year := 2025
       status := .pending, scheduledFor := 20254 * 86400 - 18000
       sentAt := none, attempts := 0, lastError := none
       createdAt := 20254 * 86400 - 18000
       updatedAt := 20254 * 86400 - 18000 } : BirthdayMessage).status = .pending := by
  exact c5_scheduling_amended exUser (14 * 3600) 0 [] [] [] [] "id1"
    (20254 * 86400 - 18000) none _ (by decide)

lemma retryStep_preserves (now : Int) (st : Ledger × List Payload)
    (message : BirthdayMessage) (t : String) (hne : message.id ≠ t) :
    findById (retryStep now st message).1 t = findById st.1 t := by
  unfold retryStep
  cases hu : message.user with
  | none => rfl
  | some u =>
      show findById (markAsQueued (resetToPending st.1 message.id now) message.id now) t = _
      unfold markAsQueued resetToPending
      rw [findById_repoUpdateById_ne _ _ _ _ (by intro x; rfl) hne,
        findById_repoUpdateById_ne _ _ _ _ (by intro x; rfl) hne]

lemma foldl_retryStep_preserves (now : Int) (msgs : List BirthdayMessage)
    (st : Ledger × List Payload) (t : String) (h : ∀ m' ∈ msgs, m'.id ≠ t) :
    findById (msgs.foldl (retryStep now) st).1 t = findById st.1 t := by
  induction msgs generalizing st with
  | nil => rfl
  | cons a as ih =>
      rw [List.foldl_cons, ih _ fun m' hm' => h m' (List.mem_cons_of_mem a hm'),
        retryStep_preserves now st a t (h a (List.mem_cons_self a as))]

lemma resetToPending_target (l : Ledger) (m : BirthdayMessage) (now : Int)
    (hfind : findById l m.id = some m) :
    findById (resetToPending l m.id now) m.id
      = some { m with status := .pending, updatedAt := now } := by
  unfold resetToPending
  rw [findById_repoUpdateById_self _ _ _ (by intro x; rfl), hfind]
  rfl

lemma retryStep_target (now : Int) (st : Ledger × List Payload)
    (m : BirthdayMessage) (u : User) (hu : m.user = some u)
    (hfind : findById st.1 m.id = some m) :
    findById (retryStep now st m).1 m.id
      = some { m with status := .queued, updatedAt := now } := by
  unfold retryStep
  rw [hu]
  show findById (markAsQueued (resetToPending st.1 m.id now) m.id now) m.id = _
  unfold markAsQueued
  rw [findById_repoUpdateById_self _ _ _ (by intro x; rfl),
    resetToPending_target st.1 m now hfind]
  simp [hu]

lemma foldl_retryStep_main (now : Int) :
    ∀ (msgs : List BirthdayMessage) (st : Ledger × List Payload)
      (m : BirthdayMessage) (u : User),
      m ∈ msgs → (msgs.map (·.id)).Nodup → m.user = some u →
      findById st.1 m.id = some m →
      findById (msgs.foldl (retryStep now) st).1 m.id
        = some { m with status := .queued, updatedAt := now } := by
  intro msgs
  induction msgs with
  | nil => intro st m u hm; cases hm
  | cons a as ih =>
      intro st m u hm hnd hu hfind
      rw [List.map_cons, List.nodup_cons] at hnd
      rw [List.foldl_cons]
      rcases List.mem_cons.mp hm with h | h
      · subst h
        have hpres : ∀ m' ∈ as, m'.id ≠ m.id := by
          intro m' hm' he
          exact hnd.1 (he ▸ List.mem_map.mpr ⟨m', hm', rfl⟩)
        rw [foldl_retryStep_preserves now as _ m.id hpres,
          retryStep_target now st m u hu hfind]
      · have hane : a.id ≠ m.id := by
          intro he
          exact hnd.1 (he ▸ List.mem_map.mpr ⟨m, h, rfl⟩)
        have hfind' : findById (retryStep now st a).1 m.id = some m := by
          rw [retryStep_preserves now st a m.id hane]
          exact hfind
        exact ih (retryStep now st a) m u h hnd.2 hu hfind'

lemma getFailedMessagesForRetry_sub (l : Ledger) (maxA lim : Nat) :
    ∀ m ∈ getFailedMessagesForRetry l maxA lim, m ∈ l := by
  intro m hm
  unfold getFailedMessagesForRetry at hm
  have h1 := (List.mem_filter.mp hm).1
  have h2 := List.mem_of_mem_take h1
  have h3 := (List.mem_insertionSort _).mp h2
  exact (List.mem_filter.mp h3).1

lemma getFailedMessagesForRetry_nodup_ids (l : Ledger) (maxA lim : Nat)
    (hnd : (l.map (·.id)).Nodup) :
    ((getFailedMessagesForRetry l maxA lim).map (·.id)).Nodup := by
  unfold getFailedMessagesForRetry
  have n1 : ((l.filter fun m => m.status == .failed).map
      (fun m : BirthdayMessage => m.id)).Nodup :=
    List.Nodup.sublist ((List.filter_sublist _).map (fun m : BirthdayMessage => m.id)) hnd
  have n2 : (((l.filter fun m => m.status == .failed).insertionSort
      fun a b => a.updatedAt ≤ b.updatedAt).map (fun m : BirthdayMessage => m.id)).Nodup :=
    (((List.perm_insertionSort _ _).map (fun m : BirthdayMessage => m.id)).nodup_iff).mpr n1
  have n3 := List.Nodup.sublist
    ((List.take_sublist lim _).map (fun m : BirthdayMessage => m.id)) n2
  exact List.Nodup.sublist
    ((List.filter_sublist _).map (fun m : BirthdayMessage => m.id)) n3

lemma resetToPending_frame (l : Ledger) (t : String) (now : Int) :
    (resetToPending l t now).map (fun r =>
        (r.id, r.userId, r.year, r.attempts, r.lastError, r.scheduledFor, r.sentAt))
      = l.map (fun r =>
        (r.id, r.userId, r.year, r.attempts, r.lastError, r.scheduledFor, r.sentAt)) := by
  unfold resetToPending repoUpdateById
  rw [List.map_map]
  apply List.map_congr_left
  intro a _
  by_cases h : a.id = t <;> simp [h]

/-- C8 counterexample: a ledger holding 100 exhausted failed records
(all with earlier update timestamps) and one retryable failed record —
attempt count 2, resolvable user — on which one full Reconciler pass
leaves the retryable record entirely untouched, still `failed`: the
retry query takes its 100-row window before filtering by attempts, so
the record is never selected, refuting the claim that every retryable
failed record transitions failed → pending → queued in one pass. -/
theorem c8_retry_pass_misses_record_cex :
    retryableMsg.status = .failed ∧ retryableMsg.attempts < MAX_RETRY_ATTEMPTS ∧
    retryableMsg.user = some exUser ∧ retryableMsg ∈ bigLedger ∧
    getFailedMessagesForRetry bigLedger MAX_RETRY_ATTEMPTS 100 = [] ∧
    findById (retryFailedMessages bigLedger [] 999).1 "r1" = some retryableMsg := by
  decide

/-- C8 (amended): every `failed` record below the attempt ceiling with a
resolvable recipient that the retry query actually returns (the query
keeps only the 100 earliest-updated failed rows before filtering by
attempts) is, in one Reconciler pass, reset to `pending` by
`resetToPending` — which rewrites only the status (and the update
timestamp), leaving attempt count, last error, scheduled-for, sent-at
and the identifying columns unchanged — and ends the pass `queued`, with
attempt count, last error, scheduled-for and sent-at as before. -/
theorem c8_retry_pass_amended :
    ∀ (ledger : Ledger) (queue : List Payload) (now : Int)
      (m : BirthdayMessage) (u : User),
      (ledger.map (fun r : BirthdayMessage => r.id)).Nodup →
      m ∈ getFailedMessagesForRetry ledger MAX_RETRY_ATTEMPTS 100 →
      m.user = some u →
      m.status = .failed ∧ m.attempts < MAX_RETRY_ATTEMPTS ∧
      ((resetToPending ledger m.id now).map (fun r =>
          (r.id, r.userId, r.year, r.attempts, r.lastError, r.scheduledFor, r.sentAt))
        = ledger.map (fun r =>
          (r.id, r.userId, r.year, r.attempts, r.lastError, r.scheduledFor, r.sentAt))) ∧
      findById (resetToPending ledger m.id now) m.id
        = some { m with status := .pending, updatedAt := now } ∧
      findById (retryFailedMessages ledger queue now).1 m.id
        = some { m with status := .queued, updatedAt := now } := by
  intro ledger queue now m u hnd hm hu
  have hmem : m ∈ ledger := getFailedMessagesForRetry_sub _ _ _ m hm
  have hfind : findById ledger m.id = some m := findById_eq_of_mem_nodup _ _ hmem hnd
  have hstat : m.status = .failed ∧ m.attempts < MAX_RETRY_ATTEMPTS := by
    unfold getFailedMessagesForRetry at hm
    have h1 := List.mem_filter.mp hm
    have h2 := List.mem_of_mem_take h1.1
    have h3 := (List.mem_insertionSort _).mp h2
    have h4 := List.mem_filter.mp h3
    exact ⟨by simpa using h4.2, by simpa using h1.2⟩
  refine ⟨hstat.1, hstat.2, resetToPending_frame ledger m.id now,
    resetToPending_target ledger m now hfind, ?_⟩
  unfold retryFailedMessages
  exact foldl_retryStep_main now (getFailedMessagesForRetry ledger MAX_RETRY_ATTEMPTS)
    (ledger, queue) m u hm
    (getFailedMessagesForRetry_nodup_ids ledger MAX_RETRY_ATTEMPTS 100 hnd) hu hfind

/-- C8 amended witness: a one-row ledger holding the retryable failed
record; the pass resets it to pending and leaves it queued with its
attempt count, last error, scheduled-for and sent-at intact. -/
theorem c8_retry_pass_amended_witness :
    retryableMsg.status = .failed ∧ retryableMsg.attempts < MAX_RETRY_ATTEMPTS ∧
    ((resetToPending [retryableMsg] retryableMsg.id 777).map (fun r =>
        (r.id, r.userId, r.year, r.attempts, r.lastError, r.scheduledFor, r.sentAt))
      = [retryableMsg].map (fun r =>
        (r.id, r.userId, r.year, r.attempts, r.lastError, r.scheduledFor, r.sentAt))) ∧
    findById (resetToPending [retryableMsg] retryableMsg.id 777) retryableMsg.id
      = some { retryableMsg with status := .pending, updatedAt := 777 } ∧
    findById (retryFailedMessages [retryableMsg] [] 777).1 retryableMsg.id
      = some { retryableMsg with status := .queued, updatedAt := 777 } := by
  exact c8_retry_pass_amended [retryableMsg] [] 777 retryableMsg exUser
    (by decide) (by decide) (by decide)
